import Mathlib

/-!
# Verification of the hikari-flare typed string codec

A shallow embedding of `flare/converters.py` and `flare/internal/serde.py`,
the typed, length-bounded string codec at the core of the repository.

Python strings are modelled as lists of Unicode code points (`PyStr`);
`bytes` values are lists of naturals below 256.  Operations that can raise
in Python (`int.to_bytes`, `str.encode("latin1")`, indexing an empty
string, `struct.unpack`) return `Option`/`Except` values.
-/

/-- A Python `str`: a sequence of Unicode code points. -/
abbrev PyStr := List Nat

instance {ε α : Type} [DecidableEq ε] [DecidableEq α] : DecidableEq (Except ε α) := fun x y =>
  match x, y with
  | .ok a, .ok b =>
    if h : a = b then .isTrue (by rw [h]) else .isFalse (by intro hc; cases hc; exact h rfl)
  | .error a, .error b =>
    if h : a = b then .isTrue (by rw [h]) else .isFalse (by intro hc; cases hc; exact h rfl)
  | .ok _, .error _ => .isFalse (by intro hc; cases hc)
  | .error _, .ok _ => .isFalse (by intro hc; cases hc)

/-- Little-endian byte list of a natural, `len` bytes wide.
Mirrors the digit extraction performed by `int.to_bytes(len, "little")`. -/
def bytesOf : Nat → Nat → List Nat
  | 0, _ => []
  | len + 1, v => v % 256 :: bytesOf len (v / 256)

/-- `n.to_bytes(len, "little")` for a natural `n`: fails (OverflowError)
when the value does not fit in `len` bytes. -/
def natToBytesLE (len v : Nat) : Option (List Nat) :=
  if v < 256 ^ len then some (bytesOf len v) else none

/-- `v.to_bytes(len, "little")` on a Python `int`: additionally rejects
negative values (the default is an unsigned conversion). -/
def pyIntToBytes (len : Nat) (v : Int) : Option (List Nat) :=
  if v < 0 then none else natToBytesLE len v.toNat

/-- `int.from_bytes(bs, "little")`. -/
def natFromBytesLE : List Nat → Nat
  | [] => 0
  | b :: rest => b + 256 * natFromBytesLE rest

/-- `s.encode("latin1")`: identity on the code points when all of them are
below 256, a `UnicodeEncodeError` otherwise. -/
def encodeLatin1 (s : PyStr) : Option (List Nat) :=
  if s.all (fun c => decide (c < 256)) then some s else none

/-- Render a `PyStr` into a Lean string (used when a decoded value is
interpolated into an error message). -/
def pyStrRender (s : PyStr) : String :=
  String.mk (s.map Char.ofNat)

/-- Fuel-driven helper computing the binary length of a natural.
The fuel is always instantiated with the number itself. -/
def bitLenAux : Nat → Nat → Nat
  | 0, _ => 0
  | fuel + 1, n => if n = 0 then 0 else bitLenAux fuel (n / 2) + 1

/-- Python `int.bit_length()` on a non-negative value. -/
def pyBitLength (n : Nat) : Nat := bitLenAux n n

/-! ## Built-in converters (`flare/converters.py`)

Each converter's `to_str` / `from_str` pair is translated directly from
the source.  `from_str` returns `(remaining, value)` in that order, as the
Python code does.
-/

namespace StringConverter

/-- `StringConverter.to_str`:
`length.to_bytes(4, "little").decode("latin1") + obj` — a four-character
little-endian length prefix followed by the raw characters. -/
def to_str (obj : PyStr) : Option PyStr :=
  (natToBytesLE 4 obj.length).map (fun byte_length => byte_length ++ obj)

/-- `StringConverter.from_str`:
reads a single length character `obj[0]` (IndexError on an empty input,
UnicodeEncodeError when the code point exceeds 255), then splits off that
many characters: returns `(obj[length+1:], obj[1:length+1])`. -/
def from_str (obj : PyStr) : Option (PyStr × PyStr) :=
  match obj with
  | [] => none
  | c :: rest => if c < 256 then some (rest.drop c, rest.take c) else none

end StringConverter

namespace IntConverter

/-- `IntConverter.to_str`:
`byte_length = obj.bit_length() // 8 + 1`, then the little-endian bytes
are decoded as Latin-1 characters and delegated to the string encoding.
`bit_length` on a negative int is the bit length of its absolute value;
`to_bytes` then rejects the negative value itself. -/
def to_str (obj : Int) : Option PyStr :=
  let byte_length := pyBitLength obj.natAbs / 8 + 1
  (pyIntToBytes byte_length obj).bind (fun bs => StringConverter.to_str bs)

/-- `IntConverter.from_str`: delegates to the string decoding
(`get_converter(str)` resolves to `StringConverter`), then re-encodes the
recovered characters as Latin-1 bytes and reads them little-endian. -/
def from_str (obj : PyStr) : Option (PyStr × Int) :=
  (StringConverter.from_str obj).bind (fun p =>
    (encodeLatin1 p.2).map (fun bs => (p.1, (natFromBytesLE bs : Int))))

end IntConverter

namespace FloatConverter

/-- `FloatConverter.to_str`: `struct.pack("d", obj).decode("latin1")` —
the eight IEEE-754 little-endian bytes of the double, one character each.
The double is modelled by its 64-bit pattern. -/
def to_str (bits : Nat) : Option PyStr :=
  natToBytesLE 8 bits

/-- `FloatConverter.from_str`: slices `obj[:2]` off the input and calls
`struct.unpack("d", ...)`, which demands exactly eight bytes.  Since the
slice holds at most two characters, the unpack step always raises
`struct.error`; the model keeps the length test the unpack performs. -/
def from_str (obj : PyStr) : Option (PyStr × Nat) :=
  let head := obj.take 2
  let remaining := obj.drop 2
  if head.all (fun c => decide (c < 256)) && head.length == 8 then
    some (remaining, natFromBytesLE head)
  else none

end FloatConverter

namespace BoolConverter

/-- `BoolConverter.to_str`: a single character, `t` (116) when the value
is truthy and `f` (102) otherwise. -/
def to_str (obj : Bool) : PyStr :=
  if obj then [116] else [102]

/-- `BoolConverter.from_str`: reads one character (IndexError on empty
input) and compares it with `t`. -/
def from_str (obj : PyStr) : Option (PyStr × Bool) :=
  match obj with
  | [] => none
  | c :: rest => some (rest, c == 116)

end BoolConverter

namespace EnumConverter

/-- `EnumConverter.to_str`: encodes the member's underlying value through
`get_converter(int)`, which resolves to `IntConverter`.  Only int-valued
enum members are modelled. -/
def to_str (value : Int) : Option PyStr :=
  IntConverter.to_str value

/-- `EnumConverter.from_str`: decodes an integer through
`get_converter(int)`.  The subsequent member construction
`self.type(enum)` (a ValueError when no member carries the value) needs
the member table of the bound enum class and is not modelled; no claim
concerns it. -/
def from_str (obj : PyStr) : Option (PyStr × Int) :=
  IntConverter.from_str obj

end EnumConverter

/-! ## Type hints and the converter registry (`flare/converters.py`)

A type hint is a Python class (identified by its name together with the
names of its strict superclasses), a union of classes, a `typing.Literal`
form, or a parameterized generic.  Empty unions are not constructible in
Python, so their behaviour under `_get_left` is immaterial.
-/

inductive TypeHint where
  /-- A plain class; `bases` lists the names of its strict superclasses. -/
  | cls (name : String) (bases : List String)
  /-- A union `A | B | ...` of classes, each given by name and bases. -/
  | unionOf (members : List (String × List String))
  /-- The `types.UnionType` / `typing.Union` origin marker. -/
  | unionMarker
  /-- A parameterized `typing.Literal[...]` form. -/
  | literalOf (args : List String)
  /-- The bare `typing.Literal` special form. -/
  | literalMarker
  /-- A parameterized generic such as `list[int]`; its origin is the class
  `originName` with superclasses `originBases`. -/
  | genericOf (originName : String) (originBases : List String) (nArgs : Nat)
deriving DecidableEq

/-- The converter classes registered at module load. -/
inductive ConvClass where
  | intC | floatC | strC | boolC | enumC
deriving DecidableEq

def intHint : TypeHint := .cls ("int") [("object")]
def strHint : TypeHint := .cls ("str") [("object")]
def floatHint : TypeHint := .cls ("float") [("object")]
def boolHint : TypeHint := .cls ("bool") [("int"), ("object")]
def enumHint : TypeHint := .cls ("Enum") [("object")]

/-- Association-list lookup, mirroring Python `dict` key lookup. -/
def lookupAssoc {α β : Type} [DecidableEq α] (k : α) : List (α × β) → Option β
  | [] => none
  | (k₁, v) :: rest => if k = k₁ then some v else lookupAssoc k rest

/-- `t.get_origin`: the unsubscripted origin of a parameterized form, or
`None` for anything that is not parameterized. -/
def t_get_origin : TypeHint → Option TypeHint
  | .unionOf _ => some .unionMarker
  | .literalOf _ => some .literalMarker
  | .genericOf n bs _ => some (.cls n bs)
  | _ => none

/-- `_is_union`: whether the hint's origin is `types.UnionType` or
`typing.Union` (both collapsed into `unionMarker` here). -/
def _is_union (obj : TypeHint) : Bool :=
  match t_get_origin obj with
  | some .unionMarker => true
  | _ => false

/-- `_get_left`: the first alternative of a union, or the hint unchanged.
Only `unionOf` satisfies `_is_union`, and Python unions are never empty. -/
def _get_left (obj : TypeHint) : TypeHint :=
  if _is_union obj then
    match obj with
    | .unionOf ((n, bs) :: _) => .cls n bs
    | _ => obj
  else obj

/-- `_any_issubclass`: `False` when the first argument is not a class,
otherwise `issubclass`.  (With the built-in registry the second argument
is always a class at every call site, so the TypeError `issubclass`
raises on a non-class second argument is unreachable.) -/
def _any_issubclass (x cls_ : TypeHint) : Bool :=
  match x, cls_ with
  | .cls n bs, .cls m _ => n == m || bs.contains m
  | _, _ => false

/-- The module-level `_converters` dict after the registrations at the
bottom of `converters.py`, in insertion order:
float, int, str, `typing.Literal`, Enum, bool. -/
def _converters : List (TypeHint × ConvClass × Bool) :=
  [(floatHint, (.floatC, true)),
   (intHint, (.intC, true)),
   (strHint, (.strC, true)),
   (.literalMarker, (.strC, false)),
   (enumHint, (.enumC, true)),
   (boolHint, (.boolC, false))]

/-- The hint actually looked up by `get_converter`: the leftmost union
alternative, replaced by its generic origin when it has one
(`origin_ = t.get_origin(origin); if origin_: origin = origin_`). -/
def reduceHint (type_ : TypeHint) : TypeHint :=
  let origin := _get_left type_
  match t_get_origin origin with
  | some o => o
  | none => origin

/-- `getattr(type_, "__name__", type_)` as interpolated into the
not-found message.  Classes report their `__name__`; the rendering of
non-class forms is approximated (no claim evaluates it on them). -/
def displayName : TypeHint → String
  | .cls n _ => n
  | .unionOf ms => String.intercalate (" | ") (ms.map (fun m => m.1))
  | .unionMarker => "UnionType"
  | .literalOf _ => "Literal"
  | .literalMarker => "Literal"
  | .genericOf n _ _ => n

/-- The error raised by `get_converter` (class `ConverterError` from
`flare.exceptions`, called `ConverterNotFound` by the spec; the class
body lives outside the two source files, so only its message payload is
modelled). -/
structure ConverterError where
  msg : String
deriving DecidableEq

def convNotFoundMsg (type_ : TypeHint) : String :=
  "Could not find converter for type `" ++ displayName type_ ++ "`."

/-- The registry scan inside `get_converter`: exact lookup first, then
the first registration (in insertion order) with `supports_subclass`
whose key the resolved type subclasses.  The chosen converter is bound
to the resolved origin (`converter(origin)`). -/
def resolveOrigin (origin : TypeHint) : Option (ConvClass × TypeHint) :=
  match lookupAssoc origin _converters with
  | some (c, _) => some (c, origin)
  | none =>
    match _converters.find? (fun reg => reg.2.2 && _any_issubclass origin reg.1) with
    | some (_, c, _) => some (c, origin)
    | none => none

/-- `get_converter` (one un-memoized call): union reduction, generic
origin replacement, registry lookup, subclass scan, raising
`ConverterError` when nothing matches. -/
def get_converter (type_ : TypeHint) : Except ConverterError (ConvClass × TypeHint) :=
  match resolveOrigin (reduceHint type_) with
  | some r => .ok r
  | none => .error ⟨convNotFoundMsg type_⟩

/-! ### The `functools.lru_cache` wrapper around `get_converter`

The decorator memoizes the *return value* of `get_converter` — a
converter instance — keyed by the raw hint, with capacity 128 and
least-recently-used eviction.  Object identity is modelled by tagging
each constructed instance with an allocation counter.
-/

/-- A constructed converter object: an identity tag, the converter class
that was instantiated, and the resolved type it was bound to. -/
structure ConverterInstance where
  instId : Nat
  convClass : ConvClass
  boundType : TypeHint
deriving DecidableEq

/-- The lru_cache state: entries most-recent-first, plus the allocation
counter for instance identities. -/
structure CacheState where
  cache : List (TypeHint × ConverterInstance)
  nextId : Nat
deriving DecidableEq

/-- Record `k ↦ v` as most recent and drop beyond the 128-entry cap. -/
def cacheInsert (k : TypeHint) (v : ConverterInstance)
    (c : List (TypeHint × ConverterInstance)) : List (TypeHint × ConverterInstance) :=
  ((k, v) :: c.filter (fun p => p.1 != k)).take 128

/-- The memoized `get_converter`: a cache hit returns the stored instance
(and refreshes its recency); a miss runs the resolution, allocates a
fresh instance, and caches it.  Exceptions are not cached. -/
def get_converter_cached (type_ : TypeHint) (s : CacheState) :
    Except ConverterError ConverterInstance × CacheState :=
  match lookupAssoc type_ s.cache with
  | some inst => (.ok inst, ⟨cacheInsert type_ inst s.cache, s.nextId⟩)
  | none =>
    match get_converter type_ with
    | .ok (c, bound) =>
      let inst : ConverterInstance := ⟨s.nextId, c, bound⟩
      (.ok inst, ⟨cacheInsert type_ inst s.cache, s.nextId + 1⟩)
    | .error e => (.error e, s)

/-! ## Values and the dispatching `to_str` / `from_str`

`serialize`/`deserialize` call `to_str`/`from_str` on whichever converter
the registry resolved.  Values are the Python objects the built-in
converters handle: ints, doubles (by bit pattern), strings, booleans and
int-valued enum members.
-/

inductive Value where
  | vInt (i : Int)
  | vFloat (bits : Nat)
  | vStr (s : PyStr)
  | vBool (b : Bool)
  | vEnum (value : Int)
deriving DecidableEq

/-- Python truthiness of a possibly-missing value (`None` is falsy; a
float is falsy exactly on ±0.0; enum members are truthy). -/
def pyTruthy : Option Value → Bool
  | none => false
  | some (.vInt i) => i != 0
  | some (.vFloat bits) => bits != 0 && bits != 2 ^ 63
  | some (.vStr s) => !s.isEmpty
  | some (.vBool b) => b
  | some (.vEnum _) => true

/-- `converter.to_str(val)` for the resolved converter class.  `val` is
`kwargs.get(k)`, hence possibly `None`.  `BoolConverter.to_str` is a
truthiness test and accepts anything; the other converters raise on a
missing or foreign-typed argument (`none` here).  Numeric coercions such
as `struct.pack("d", some_int)` are not modelled; no claim exercises
them. -/
def applyToStr : ConvClass → Option Value → Option PyStr
  | .strC, some (.vStr s) => StringConverter.to_str s
  | .intC, some (.vInt i) => IntConverter.to_str i
  | .floatC, some (.vFloat bits) => FloatConverter.to_str bits
  | .enumC, some (.vEnum v) => EnumConverter.to_str v
  | .boolC, v => some (BoolConverter.to_str (pyTruthy v))
  | _, _ => none

/-- `converter.from_str(remainder)` for the resolved converter class. -/
def applyFromStr : ConvClass → PyStr → Option (PyStr × Value)
  | .strC, obj => (StringConverter.from_str obj).map (fun p => (p.1, .vStr p.2))
  | .intC, obj => (IntConverter.from_str obj).map (fun p => (p.1, .vInt p.2))
  | .floatC, obj => (FloatConverter.from_str obj).map (fun p => (p.1, .vFloat p.2))
  | .boolC, obj => (BoolConverter.from_str obj).map (fun p => (p.1, .vBool p.2))
  | .enumC, obj => (EnumConverter.from_str obj).map (fun p => (p.1, .vEnum p.2))

/-! ## The codec (`flare/internal/serde.py`) -/

/-- The failures a serialize/deserialize attempt can surface:
`SerializerError` with its message, the resolution error propagating out
of `get_converter`, or another runtime exception (TypeError,
OverflowError, IndexError, struct.error, ...). -/
inductive SerdeError where
  | serializer (msg : String)
  | converterNotFound (msg : String)
  | runtimeErr
deriving DecidableEq

/-- A component as `deserialize` consumes it: its ordered field
annotations (`component_._dataclass_annotations` in the source). -/
structure Component where
  fieldTypes : List (String × TypeHint)
deriving DecidableEq

/-- The oversize message, assembled exactly as the f-string in
`serialize` does. -/
def oversizeMsg (cookie : String) (n : Nat) : String :=
  "The serialized custom_id for component " ++ cookie ++ " may be too long." ++
    " Try reducing the number of parameters the component takes." ++
    " Got length: " ++ toString n ++ " Expected length: 100 or less"

/-- The unknown-cookie message from `deserialize`. -/
def unknownCookieMsg (cookie : PyStr) : String :=
  "Component with cookie " ++ pyStrRender cookie ++ " does not exist."

/-- `serialize_one`: fetch the value (`kwargs.get(k)`), resolve the
field's converter, convert. -/
def serialize_one (kwargs : List (String × Value)) (k : String) (v : TypeHint) :
    Except SerdeError PyStr :=
  let val := lookupAssoc k kwargs
  match get_converter v with
  | .error e => .error (.converterNotFound e.msg)
  | .ok (conv, _) =>
    match applyToStr conv val with
    | none => .error .runtimeErr
    | some s => .ok s

/-- The gather over `serialize_one(k, v) for k, v in types.items()`:
all fragments in schema order; the first exception propagates. -/
def serializeFields (types : List (String × TypeHint)) (kwargs : List (String × Value)) :
    Except SerdeError (List PyStr) :=
  match types with
  | [] => .ok []
  | (k, v) :: rest =>
    match serialize_one kwargs k v with
    | .error e => .error e
    | .ok f =>
      match serializeFields rest kwargs with
      | .error e => .error e
      | .ok fs => .ok (f :: fs)

/-- `"".join(...)`. -/
def joinFragments (fs : List PyStr) : PyStr :=
  fs.foldr (fun a b => a ++ b) []

/-- `serialize`: concatenate the per-field fragments in schema order and
enforce the 100-character ceiling. -/
def serialize (cookie : String) (types : List (String × TypeHint))
    (kwargs : List (String × Value)) : Except SerdeError PyStr :=
  match serializeFields types kwargs with
  | .error e => .error e
  | .ok fragments =>
    let out := joinFragments fragments
    if out.length > 100 then .error (.serializer (oversizeMsg cookie out.length))
    else .ok out

/-- The field loop of `deserialize`: thread the remainder through each
field's converter in schema order. -/
def deserializeFields (fields : List (String × TypeHint)) (remainder : PyStr) :
    Except SerdeError (List (String × Value) × PyStr) :=
  match fields with
  | [] => .ok ([], remainder)
  | (k, v) :: rest =>
    match get_converter v with
    | .error e => .error (.converterNotFound e.msg)
    | .ok (conv, _) =>
      match applyFromStr conv remainder with
      | none => .error .runtimeErr
      | some (rem, value) =>
        match deserializeFields rest rem with
        | .error e => .error e
        | .ok (vals, rem₂) => .ok ((k, value) :: vals, rem₂)

/-- `deserialize`: decode the cookie prefix with the string converter
(`get_converter(str)` resolves to `StringConverter`), look the cookie up
in the component map, raise `SerializerError` when it is absent, and
otherwise decode the component's fields left to right.  Leftover
remainder is discarded. -/
def deserialize (custom_id : PyStr) (component_map : List (PyStr × Component)) :
    Except SerdeError (Component × List (String × Value)) :=
  match StringConverter.from_str custom_id with
  | none => .error .runtimeErr
  | some (rest, cookie) =>
    match lookupAssoc cookie component_map with
    | none => .error (.serializer (unknownCookieMsg cookie))
    | some component_ =>
      match deserializeFields component_.fieldTypes rest with
      | .error e => .error e
      | .ok (args, _) => .ok (component_, args)

/-! ## Supporting lemmas -/

theorem bitLenAux_zero (fuel : Nat) : bitLenAux fuel 0 = 0 := by
  cases fuel <;> simp [bitLenAux]

/-- The value is always below `2 ^ bit_length`, provided enough fuel. -/
theorem bitLenAux_lt : ∀ fuel n : Nat, n ≤ fuel → n < 2 ^ bitLenAux fuel n := by
  intro fuel
  induction fuel with
  | zero =>
    intro n h
    have hn : n = 0 := Nat.le_zero.mp h
    subst hn
    simp [bitLenAux]
  | succ f ih =>
    intro n h
    by_cases hn : n = 0
    · subst hn; simp [bitLenAux]
    · have hhalf : n / 2 ≤ f := by omega
      have hrec := ih (n / 2) hhalf
      have hstep : bitLenAux (f + 1) n = bitLenAux f (n / 2) + 1 := by
        simp [bitLenAux, hn]
      rw [hstep]
      calc n < 2 * (n / 2) + 2 := by omega
        _ ≤ 2 * 2 ^ bitLenAux f (n / 2) := by omega
        _ = 2 ^ (bitLenAux f (n / 2) + 1) := by rw [pow_succ, Nat.mul_comm]

theorem pyBitLength_lt (n : Nat) : n < 2 ^ pyBitLength n :=
  bitLenAux_lt n n (Nat.le_refl n)

/-- `bit_length` of a power of two, provided enough fuel. -/
theorem bitLenAux_pow : ∀ k fuel : Nat, 2 ^ k ≤ fuel → bitLenAux fuel (2 ^ k) = k + 1 := by
  intro k
  induction k with
  | zero =>
    intro fuel h
    cases fuel with
    | zero => omega
    | succ f => simp [bitLenAux, bitLenAux_zero]
  | succ k ih =>
    intro fuel h
    have hpos : 1 ≤ 2 ^ k := Nat.one_le_two_pow
    have hval : (1 : Nat) ≤ 2 ^ (k + 1) := Nat.one_le_two_pow
    cases fuel with
    | zero => omega
    | succ f =>
      have hne : 2 ^ (k + 1) ≠ 0 := by omega
      have hstep : bitLenAux (f + 1) (2 ^ (k + 1)) = bitLenAux f (2 ^ (k + 1) / 2) + 1 := by
        simp [bitLenAux, hne]
      have hdiv : 2 ^ (k + 1) / 2 = 2 ^ k := by
        rw [pow_succ]
        omega
      have hfuel : 2 ^ k ≤ f := by
        have : 2 * 2 ^ k ≤ f + 1 := by rw [← Nat.mul_comm, ← pow_succ]; exact h
        omega
      rw [hstep, hdiv, ih f hfuel]

theorem pyBitLength_two_pow (k : Nat) : pyBitLength (2 ^ k) = k + 1 :=
  bitLenAux_pow k (2 ^ k) (Nat.le_refl _)

theorem bytesOf_length : ∀ len n : Nat, (bytesOf len n).length = len := by
  intro len
  induction len with
  | zero => intro n; simp [bytesOf]
  | succ l ih => intro n; simp [bytesOf, ih]

/-- Exact domain of `IntConverter.to_str`: the value must be
non-negative (otherwise `to_bytes` raises `OverflowError`) and the
computed byte-length must fit the four-byte length prefix of the string
encoding (otherwise `length.to_bytes(4, "little")` raises). -/
theorem intToStr_isSome (v : Int) :
    (IntConverter.to_str v).isSome ↔
      0 ≤ v ∧ pyBitLength v.natAbs / 8 + 1 < 2 ^ 32 := by
  unfold IntConverter.to_str pyIntToBytes
  by_cases hv : v < 0
  · simp [hv]
  · push_neg at hv
    have hvn : ¬ v < 0 := not_lt.mpr hv
    have habs : v.natAbs = v.toNat := by omega
    simp only [hvn, if_false]
    set bl := pyBitLength v.natAbs / 8 + 1 with hbl
    have hfit : v.toNat < 256 ^ bl := by
      have h1 : v.toNat < 2 ^ pyBitLength v.toNat := pyBitLength_lt v.toNat
      have h2 : pyBitLength v.natAbs < 8 * bl := by omega
      have h3 : 2 ^ pyBitLength v.toNat ≤ 2 ^ (8 * bl) := by
        apply Nat.pow_le_pow_right (by omega)
        rw [← habs]; omega
      have h4 : (256 : Nat) ^ bl = 2 ^ (8 * bl) := by
        rw [Nat.pow_mul]
      omega
    unfold natToBytesLE
    simp only [hfit, if_true]
    unfold StringConverter.to_str natToBytesLE
    simp only [Option.some_bind]
    rw [bytesOf_length]
    by_cases hcap : bl < 256 ^ 4
    · have : bl < 2 ^ 32 := by norm_num at hcap ⊢; omega
      simp [hcap, hv, this]
    · have : ¬ bl < 2 ^ 32 := by norm_num at hcap ⊢; omega
      simp [hcap, hv, this]

/-- A key just written into the lru cache is found there. -/
theorem lookupAssoc_cacheInsert (k : TypeHint) (v : ConverterInstance)
    (c : List (TypeHint × ConverterInstance)) :
    lookupAssoc k (cacheInsert k v c) = some v := by
  unfold cacheInsert
  rw [show (128 : Nat) = 127 + 1 from rfl, List.take_succ_cons]
  simp [lookupAssoc]

/-- When every field fragment is given pointwise, the gather returns
exactly those fragments, in schema order. -/
theorem serializeFields_eq (kwargs : List (String × Value)) :
    ∀ (types : List (String × TypeHint)) (fs : List PyStr),
      types.length = fs.length →
      (∀ p ∈ types.zip fs, serialize_one kwargs p.1.1 p.1.2 = .ok p.2) →
      serializeFields types kwargs = .ok fs := by
  intro types
  induction types with
  | nil =>
    intro fs hlen _
    cases fs with
    | nil => rfl
    | cons f fs => simp at hlen
  | cons tv rest ih =>
    intro fs hlen hf
    cases fs with
    | nil => simp at hlen
    | cons f fs =>
      have hhead : serialize_one kwargs tv.1 tv.2 = .ok f := by
        exact hf (tv, f) (by simp [List.zip_cons_cons])
      have htail : serializeFields rest kwargs = .ok fs := by
        apply ih fs (by simpa using hlen)
        intro p hp
        exact hf p (by simp [List.zip_cons_cons, hp])
      obtain ⟨k, v⟩ := tv
      simp only [serializeFields, hhead, htail]

/-- With `.unionOf` hints the lookup happens on the leftmost member. -/
theorem reduceHint_union (n : String) (bs : List String) (ms : List (String × List String)) :
    reduceHint (.unionOf ((n, bs) :: ms)) = .cls n bs := by
  simp [reduceHint, _get_left, _is_union, t_get_origin]

/-- A plain class hint passes through the reduction untouched. -/
theorem reduceHint_cls (n : String) (bs : List String) :
    reduceHint (.cls n bs) = .cls n bs := by
  simp [reduceHint, _get_left, _is_union, t_get_origin]

/-- `get_converter(str)` resolves to the string converter bound to `str`
(the resolution `deserialize` relies on for the cookie prefix). -/
theorem get_converter_str : get_converter strHint = .ok (.strC, strHint) := by decide

/-! ## Claims -/

/-- Claim C1: the claimed string round trip fails on the code.  The
encoder emits a four-character length prefix, but the decoder reads a
single length character, so decoding the encoding of the string `hi`
(code points 104, 105) yields the two padding NUL characters as the
value and leaves `\x00hi` in the remainder — not the value `hi` with the
trailing suffix (here empty) as the remainder. -/
theorem string_roundtrip_failure :
    StringConverter.to_str [104, 105] = some [2, 0, 0, 0, 104, 105] ∧
    StringConverter.from_str [2, 0, 0, 0, 104, 105] = some ([0, 104, 105], [0, 0]) := by
  decide

/-- Claim C2: the claimed integer round trip fails on the code.
Encoding 300 delegates to the asymmetric string encoding, so decoding
reads back the two padding NUL bytes and returns 0 with a non-empty
remainder instead of 300 with an empty remainder. -/
theorem int_roundtrip_failure :
    IntConverter.to_str 300 = some [2, 0, 0, 0, 44, 1] ∧
    IntConverter.from_str [2, 0, 0, 0, 44, 1] = some ([0, 44, 1], 0) := by
  decide

/-- Claim C3: the claimed float round trip fails on the code.  The bytes
below are the IEEE-754 little-endian packing of 3.14 (bit pattern
0x40091EB851EB851F); `from_str` slices two characters off the input and
hands them to `struct.unpack("d", ...)`, which needs exactly eight
bytes, so decoding any `to_str` output raises `struct.error` (modelled
as `none`) rather than returning the float. -/
theorem float_roundtrip_failure :
    FloatConverter.to_str (natFromBytesLE [31, 133, 235, 81, 184, 30, 9, 64]) =
      some [31, 133, 235, 81, 184, 30, 9, 64] ∧
    FloatConverter.from_str [31, 133, 235, 81, 184, 30, 9, 64] = none := by
  decide

/-- Claim C4: the boolean round trip holds.  `to_str` emits the single
character `t` (116) for `true` and `f` (102) for `false`, and `from_str`
on the encoding followed by any suffix returns that suffix as the
remainder together with the original boolean. -/
theorem bool_roundtrip (b : Bool) (suffix : PyStr) :
    BoolConverter.to_str b = (if b then [116] else [102]) ∧
    BoolConverter.from_str (BoolConverter.to_str b ++ suffix) = some (suffix, b) := by
  cases b <;> simp [BoolConverter.to_str, BoolConverter.from_str]

/-- Claim C5 (counterexample): starting from an empty cache, the second
`get_converter` call for `int` returns the very instance (allocation tag
0) constructed by the first call — `functools.lru_cache` memoizes the
instance, refuting the claim that every call, including cache hits,
yields a freshly constructed, independent converter object. -/
theorem converter_instance_reused :
    (get_converter_cached intHint ⟨[], 0⟩).1 = .ok ⟨0, .intC, intHint⟩ ∧
    (get_converter_cached intHint (get_converter_cached intHint ⟨[], 0⟩).2).1 =
      .ok ⟨0, .intC, intHint⟩ := by
  decide

/-- Claim C5 (amended): after any successful `get_converter` call, a
second call with the same hint hits the cache and returns the same
converter instance, not a fresh one; new instances are only constructed
on cache misses. -/
theorem cached_resolution_returns_same_instance (type_ : TypeHint) (s s₁ : CacheState)
    (i : ConverterInstance)
    (h : get_converter_cached type_ s = (.ok i, s₁)) :
    (get_converter_cached type_ s₁).1 = .ok i := by
  have hcache : s₁.cache = cacheInsert type_ i s.cache := by
    unfold get_converter_cached at h
    cases hl : lookupAssoc type_ s.cache with
    | some inst =>
      rw [hl] at h
      rw [Prod.mk.injEq] at h
      obtain ⟨h1, h2⟩ := h
      rw [Except.ok.injEq] at h1
      rw [h1] at *
      rw [← h2]
    | none =>
      rw [hl] at h
      cases hg : get_converter type_ with
      | ok cb =>
        rw [hg] at h
        rw [Prod.mk.injEq] at h
        obtain ⟨h1, h2⟩ := h
        rw [Except.ok.injEq] at h1
        rw [h1] at *
        rw [← h2]
      | error e =>
        rw [hg] at h
        rw [Prod.mk.injEq] at h
        exact absurd h.1 (by intro hc; cases hc)
  unfold get_converter_cached
  rw [hcache, lookupAssoc_cacheInsert]

/-- Witness for the amended Claim C5 at the concrete `int` hint. -/
theorem cached_resolution_returns_same_instance_witness :
    (get_converter_cached intHint ⟨[(intHint, ⟨0, .intC, intHint⟩)], 1⟩).1 =
      .ok ⟨0, .intC, intHint⟩ :=
  cached_resolution_returns_same_instance intHint ⟨[], 0⟩
    ⟨[(intHint, ⟨0, .intC, intHint⟩)], 1⟩ ⟨0, .intC, intHint⟩ (by decide)

/-- Claim C6: union dispatch is leftmost.  Whenever resolving the first
alternative of a union succeeds, resolving the whole union returns the
very same converter; in particular the union of `int` and `str` (in
that order) resolves to the int converter bound to `int`, never to the
string converter. -/
theorem union_dispatch_leftmost :
    (∀ (m : String × List String) (ms : List (String × List String))
        (r : ConvClass × TypeHint),
      get_converter (.cls m.1 m.2) = .ok r →
      get_converter (.unionOf (m :: ms)) = .ok r) ∧
    get_converter (.unionOf [(("int"), [("object")]), (("str"), [("object")])]) =
      .ok (.intC, intHint) := by
  constructor
  · intro m ms r h
    obtain ⟨n, bs⟩ := m
    unfold get_converter at h ⊢
    rw [reduceHint_cls] at h
    rw [reduceHint_union]
    cases hro : resolveOrigin (.cls n bs) with
    | some r₁ =>
      rw [hro] at h
      exact h
    | none =>
      rw [hro] at h
      exact Except.noConfusion h
  · decide

/-- Witness for Claim C6: the leftmost rule applied to the concrete
union of `int` and `str`. -/
theorem union_dispatch_leftmost_witness :
    get_converter (.unionOf [(("int"), [("object")]), (("str"), [("object")])]) =
      .ok (.intC, intHint) :=
  union_dispatch_leftmost.1 (("int"), [("object")]) [(("str"), [("object")])]
    (.intC, intHint) (by decide)

/-- Claim C7: `serialize` returns the concatenation of the per-field
fragments in schema order when it is at most 100 characters long, and
fails with the `SerializerError` naming the cookie and the actual and
allowed lengths when it is longer (the error is raised before anything
is returned, so no partial output is produced). -/
theorem serialize_size_enforcement (cookie : String) (types : List (String × TypeHint))
    (kwargs : List (String × Value)) (fs : List PyStr)
    (hlen : types.length = fs.length)
    (hf : ∀ p ∈ types.zip fs, serialize_one kwargs p.1.1 p.1.2 = .ok p.2) :
    serialize cookie types kwargs =
      if (joinFragments fs).length ≤ 100 then .ok (joinFragments fs)
      else .error (.serializer (oversizeMsg cookie (joinFragments fs).length)) := by
  unfold serialize
  rw [serializeFields_eq kwargs types fs hlen hf]
  by_cases h : (joinFragments fs).length ≤ 100
  · have h₂ : ¬ (joinFragments fs).length > 100 := by omega
    simp [h, h₂]
  · have h₂ : (joinFragments fs).length > 100 := by omega
    simp [h, h₂]

/-- Witness for Claim C7: a one-field boolean schema serializes to its
single fragment, while a 101-character string fragment trips the
oversize error with the actual length 101 in the message. -/
theorem serialize_size_enforcement_witness :
    serialize ("c") [(("a"), boolHint)] [(("a"), Value.vBool true)] = .ok [116] ∧
    serialize ("c") [(("a"), strHint)] [(("a"), Value.vStr (List.replicate 97 0))] =
      .error (.serializer (oversizeMsg ("c") 101)) := by
  constructor
  · rw [serialize_size_enforcement ("c") [(("a"), boolHint)] [(("a"), Value.vBool true)]
      [[116]] (by decide) (by decide)]
    decide
  · rw [serialize_size_enforcement ("c") [(("a"), strHint)]
      [(("a"), Value.vStr (List.replicate 97 0))] [[97, 0, 0, 0] ++ List.replicate 97 0]
      (by decide) (by decide)]
    decide

/-- Claim C8: when the cookie prefix decodes (via the string converter)
to a cookie absent from the component map, `deserialize` fails with the
`SerializerError` naming that cookie, before any field converter runs on
the remainder. -/
theorem deserialize_unknown_cookie (custom_id : PyStr)
    (component_map : List (PyStr × Component)) (rest cookie : PyStr)
    (hdec : StringConverter.from_str custom_id = some (rest, cookie))
    (habs : lookupAssoc cookie component_map = none) :
    deserialize custom_id component_map =
      .error (.serializer (unknownCookieMsg cookie)) := by
  unfold deserialize
  simp only [hdec, habs]

/-- Witness for Claim C8: the identifier whose cookie decodes to the
single character `A` against an empty component map. -/
theorem deserialize_unknown_cookie_witness :
    deserialize [1, 65] [] = .error (.serializer (unknownCookieMsg [65])) :=
  deserialize_unknown_cookie [1, 65] [] [] [65] (by decide) (by decide)

/-- Claim C9: when neither an exact registration for the reduced hint
nor a `supports_subclass` registration the reduced hint subclasses
exists, `get_converter` fails with the not-found error carrying the
original hint's display name. -/
theorem converter_not_found (type_ : TypeHint)
    (hexact : lookupAssoc (reduceHint type_) _converters = none)
    (hsub : ∀ reg ∈ _converters, reg.2.2 = true →
      _any_issubclass (reduceHint type_) reg.1 = false) :
    get_converter type_ = .error ⟨convNotFoundMsg type_⟩ := by
  have hfind :
      _converters.find? (fun reg => reg.2.2 && _any_issubclass (reduceHint type_) reg.1) =
        none := by
    apply List.find?_eq_none.mpr
    intro reg hreg
    cases hss : reg.2.2 with
    | false => simp [hss]
    | true => simp [hss, hsub reg hreg hss]
  unfold get_converter resolveOrigin
  rw [hexact, hfind]

/-- Witness for Claim C9: an unregistered class `Foo` (direct subclass
of `object` only) resolves to the not-found error naming `Foo`. -/
theorem converter_not_found_witness :
    get_converter (.cls ("Foo") [("object")]) =
      .error ⟨convNotFoundMsg (.cls ("Foo") [("object")])⟩ :=
  converter_not_found (.cls ("Foo") [("object")]) (by decide) (by decide)

/-- Claim C10 (counterexample): a non-negative integer on which
`IntConverter.to_str` still fails.  `2 ^ 34359738359` has bit length
34359738360, so the computed byte-length is `2 ^ 32` and the delegated
string encoding cannot fit it into its four-byte length prefix
(`length.to_bytes(4, "little")` raises `OverflowError`), refuting
"succeeds for every integer v >= 0". -/
theorem int_to_str_unencodable_nonneg :
    (0 : Int) ≤ 2 ^ 34359738359 ∧ IntConverter.to_str (2 ^ 34359738359) = none := by
  have hnn : (0 : Int) ≤ 2 ^ 34359738359 := pow_nonneg (by norm_num) _
  refine ⟨hnn, ?_⟩
  have hbl : pyBitLength ((2 : Int) ^ 34359738359).natAbs = 34359738360 := by
    rw [Int.natAbs_pow]
    show pyBitLength (2 ^ 34359738359) = 34359738360
    rw [pyBitLength_two_pow]
  have h := intToStr_isSome ((2 : Int) ^ 34359738359)
  rw [hbl] at h
  have hfalse : ¬ ((0 : Int) ≤ 2 ^ 34359738359 ∧ 34359738360 / 8 + 1 < 2 ^ 32) := by
    intro hc
    have h₂ := hc.2
    norm_num at h₂
  have hns : ¬ (IntConverter.to_str ((2 : Int) ^ 34359738359)).isSome := by
    rw [h]
    exact hfalse
  exact Option.not_isSome_iff_eq_none.mp hns

/-- Claim C10 (amended): `IntConverter.to_str` succeeds exactly on the
non-negative integers whose computed byte-length
`bit_length(v) // 8 + 1` fits the four-byte length prefix of the string
encoding; every negative integer fails (`to_bytes` rejects negatives
under its default unsigned interpretation), and so do the astronomically
large non-negative ones whose byte-length reaches `2 ^ 32`. -/
theorem int_to_str_domain (v : Int) :
    (IntConverter.to_str v).isSome ↔
      0 ≤ v ∧ pyBitLength v.natAbs / 8 + 1 < 2 ^ 32 :=
  intToStr_isSome v
